import Mathlib

/-
Shallow embedding of the Go package `apachelog` (cespare/go-apachelog).

The package wraps an `http.Handler` so that every request produces one
Apache-common-log-format line on an output writer.  The embedding below
translates the two source components:

* `record` — a proxy around the real `http.ResponseWriter` that tracks the
  per-request metadata (`ip`, `method`, `uri`, `protocol`, `status`,
  `responseBytes`, `startTime`, `endTime`, `elapsedTime`) and can log
  itself (`Record.log`, `Record.finish`, `Record.Write`,
  `Record.WriteHeader`, `Record.Hijack`);
* `handler.ServeHTTP` — builds a fresh record, runs the wrapped handler
  against it, and calls `finish` after the handler returns (`ServeHTTP`).

The wrapped handler is modelled as a trace of the calls it performs on the
proxy (`HandlerAction`), together with a flag saying whether it panics
instead of returning normally.  The behaviour of the real underlying
`ResponseWriter` (how many bytes its `Write` accepts, what error it
returns, whether it supports `http.Hijacker`, what its own `Hijack` call
returns) is supplied as data in the trace and as parameters, since it is an
external collaborator.  `time.Now()` is modelled as a stream
`clock : Nat → GoTime` of successive readings: a wall-clock part used by
`Format` and a monotonic nanosecond counter used by `Sub` (the Go runtime
guarantees the monotonic readings are nondecreasing; theorems that need
this take it as a hypothesis, `validClock`).

The output sink (`out io.Writer`) is modelled as the list of strings
written to it, one list element per `Write` call on the sink.  `record.log`
emits its line with a single `fmt.Fprintf`, which formats the whole line
and then performs one `Write` on the sink, hence one list element per
`log` call.
-/

/-! ### Decimal rendering (models Go `fmt` verbs `%d` and `%.4f`) -/

/-- The decimal digit character for `n < 10`, as in Go's strconv. -/
def digitChar (n : Nat) : Char := Char.ofNat (48 + n)

/-- Fuel-indexed decimal digits of `n`, most significant first.
The fuel is an upper bound on `n`; `natDec` instantiates it with `n + 1`. -/
def natDecAux : Nat → Nat → List Char
  | 0, _ => []
  | f + 1, n => if n < 10 then [digitChar n] else natDecAux f (n / 10) ++ [digitChar (n % 10)]

/-- Decimal rendering of a natural number (Go `%d` on a nonnegative value). -/
def natDec (n : Nat) : String := ⟨natDecAux (n + 1) n⟩

/-- Decimal rendering of an integer (Go `%d` on `int` / `int64`). -/
def intDec (i : Int) : String := if i < 0 then "-" ++ natDec i.natAbs else natDec i.natAbs

/-- Zero-pad to width 2 (Go `time` layout element `02`, `15`, `04`, `05`). -/
def pad2 (n : Nat) : String := if n < 10 then "0" ++ natDec n else natDec n

/-- Zero-pad to width 4 (Go `time` layout element `2006`, and the fractional
part of `%.4f`). -/
def pad4 (n : Nat) : String :=
  if n < 10 then "000" ++ natDec n
  else if n < 100 then "00" ++ natDec n
  else if n < 1000 then "0" ++ natDec n
  else natDec n

/-- Round `x / d` to the nearest integer, ties to even — the rounding used
when a `float64` is printed with a fixed number of decimals. -/
def roundHalfEven (x d : Nat) : Nat :=
  if 2 * (x % d) < d then x / d
  else if d < 2 * (x % d) then x / d + 1
  else if x / d % 2 = 0 then x / d else x / d + 1

/-- `%.4f` applied to `ns` nanoseconds viewed in seconds
(`r.elapsedTime.Seconds()` in `record.log`): the value `ns / 1e9` rounded
to four decimal places and printed with exactly four fractional digits. -/
def fmtSeconds4 (ns : Int) : String :=
  (if ns < 0 then "-" else "")
    ++ natDec (roundHalfEven ns.natAbs 100000 / 10000)
    ++ "." ++ pad4 (roundHalfEven ns.natAbs 100000 % 10000)

/-! ### Time (models `time.Time` and the layout `"02/Jan/2006 15:04:05"`) -/

/-- Wall-clock fields of a `time.Time`, as consumed by `Format`. -/
structure WallTime where
  year : Nat
  month : Nat
  day : Nat
  hour : Nat
  minute : Nat
  second : Nat
deriving DecidableEq

/-- A `time.Now()` reading: wall clock for `Format`, monotonic nanosecond
counter for `Sub`. -/
structure GoTime where
  wall : WallTime
  mono : Nat
deriving DecidableEq

/-- Go's three-letter month abbreviation (layout element `Jan`). -/
def monthAbbrev : Nat → String
  | 1 => "Jan" | 2 => "Feb" | 3 => "Mar" | 4 => "Apr" | 5 => "May" | 6 => "Jun"
  | 7 => "Jul" | 8 => "Aug" | 9 => "Sep" | 10 => "Oct" | 11 => "Nov" | 12 => "Dec"
  | _ => ""

/-- `t.Format("02/Jan/2006 15:04:05")` from `record.log`. -/
def formatTimestamp (w : WallTime) : String :=
  pad2 w.day ++ "/" ++ monthAbbrev w.month ++ "/" ++ pad4 w.year ++ " "
    ++ pad2 w.hour ++ ":" ++ pad2 w.minute ++ ":" ++ pad2 w.second

/-! ### `net.SplitHostPort` and `getIP` -/

/-- Index of the first occurrence of `c` in `cs` (Go `byteIndex`). -/
def firstIndexOf (cs : List Char) (c : Char) : Option Nat :=
  match cs with
  | [] => none
  | d :: rest => if d = c then some 0 else (firstIndexOf rest c).map (· + 1)

/-- Index of the last occurrence of `c` in `cs` (Go `last`). -/
def lastIndexOf (cs : List Char) (c : Char) : Option Nat :=
  match cs with
  | [] => none
  | d :: rest =>
    match lastIndexOf rest c with
    | some i => some (i + 1)
    | none => if d = c then some 0 else none

/-- The standard library function `net.SplitHostPort`, called by `getIP`:
the port starts after the last colon; a host beginning with `[` must be a
bracketed form `[host]:port`; stray `[`, `]` or extra colons are errors.
Errors carry the Go error message. -/
def splitHostPortCore (cs : List Char) : Except String (List Char × List Char) :=
  match lastIndexOf cs ':' with
  | none => Except.error "missing port in address"
  | some i =>
    match
      (if cs.head? = some '[' then
        match firstIndexOf cs ']' with
        | none => Except.error "missing ']' in address"
        | some e =>
          if e + 1 = cs.length then Except.error "missing port in address"
          else if e + 1 = i then Except.ok ((cs.drop 1).take (e - 1), 1, e + 1)
          else if cs.get? (e + 1) = some ':' then Except.error "too many colons in address"
          else Except.error "missing port in address"
      else
        if (firstIndexOf (cs.take i) ':').isSome then Except.error "too many colons in address"
        else Except.ok (cs.take i, 0, 0) :
        Except String (List Char × Nat × Nat))
    with
    | Except.error e => Except.error e
    | Except.ok (host, j, k) =>
      if (firstIndexOf (cs.drop j) '[').isSome then Except.error "unexpected '[' in address"
      else if (firstIndexOf (cs.drop k) ']').isSome then Except.error "unexpected ']' in address"
      else Except.ok (host, cs.drop (i + 1))

/-- `net.SplitHostPort` on strings. -/
def splitHostPort (hostPort : String) : Except String (String × String) :=
  match splitHostPortCore hostPort.data with
  | Except.error e => Except.error e
  | Except.ok (h, p) => Except.ok (⟨h⟩, ⟨p⟩)

/-- `getIP` from the source: best-effort host extraction from
`http.Request.RemoteAddr`; on any `SplitHostPort` error the raw address is
returned verbatim. -/
def getIP (remoteAddr : String) : String :=
  match splitHostPort remoteAddr with
  | Except.error _ => remoteAddr
  | Except.ok hp => hp.1

/-! ### The `record` proxy -/

/-- The `record` struct: a wrapper around the real `ResponseWriter`
carrying the metadata needed to write a log line.  The embedded
`ResponseWriter` and the `out` writer are modelled at the call sites (the
underlying writer's responses are inputs, the sink is the list of emitted
strings). -/
structure Record where
  startTime : GoTime
  ip : String
  endTime : GoTime
  method : String
  uri : String
  protocol : String
  status : Int
  responseBytes : Int
  elapsedTime : Int
deriving DecidableEq

/-- `record.log`: the single log line, `fmt.Fprintf` with
`apacheFormatPattern = "%s - - [%s] \"%s %s %s\" %d %d %.4f\n"` applied to
ip, formatted end time, method, uri, protocol, status, responseBytes and
elapsed seconds.  One call = one atomic write of this string to the sink. -/
def Record.log (r : Record) : String :=
  r.ip ++ " - - [" ++ formatTimestamp r.endTime.wall ++ "] \"" ++ r.method ++ " "
    ++ r.uri ++ " " ++ r.protocol ++ "\" " ++ intDec r.status ++ " "
    ++ intDec r.responseBytes ++ " " ++ fmtSeconds4 r.elapsedTime ++ "\n"

/-- `record.finish`: capture `endTime = time.Now()`, compute
`elapsedTime = endTime.Sub(startTime)`, and log.  Returns the updated
record and the string written to the sink by `r.log()`. -/
def Record.finish (r : Record) (now : GoTime) : Record × String :=
  let r' : Record :=
    { r with endTime := now, elapsedTime := (now.mono : Int) - (r.startTime.mono : Int) }
  (r', r'.log)

/-- `record.Write`: delegate to the underlying `ResponseWriter.Write`
(whose response — bytes accepted and error — is the argument `resp`), add
the accepted count to `responseBytes`, and return the underlying response
unmodified.  Per the `io.Writer` contract the accepted count is
nonnegative, hence a `Nat`. -/
def Record.Write (r : Record) (resp : Nat × Option String) : Record × (Nat × Option String) :=
  ({ r with responseBytes := r.responseBytes + (resp.1 : Int) }, resp)

/-- `record.WriteHeader`: record the status, then delegate to the
underlying `ResponseWriter.WriteHeader`.  The second component is the
status forwarded to the real channel. -/
def Record.WriteHeader (r : Record) (status : Int) : Record × Int :=
  ({ r with status := status }, status)

/-- Result of `record.Hijack` as seen by the caller: either the typed
`ErrHijackingNotSupported` (the underlying writer is not an
`http.Hijacker`), or the verbatim result of the underlying `Hijack` call
(`none` = success with a connection, `some e` = its error `e`). -/
inductive HijackResult where
  | notSupported
  | underlying (err : Option String)
deriving DecidableEq

/-- `record.Hijack`: if the underlying `ResponseWriter` is not an
`http.Hijacker`, return `ErrHijackingNotSupported` with no side effects.
Otherwise call `r.finish()` — which logs — and then return the underlying
`Hijack()` result verbatim.  `u` is the underlying call's outcome and
`now` the `time.Now()` reading taken inside `finish`.  The middle
component lists the strings written to the sink during the call. -/
def Record.Hijack (r : Record) (supportsHijack : Bool) (u : Option String) (now : GoTime) :
    Record × List String × HijackResult :=
  if supportsHijack then
    ((r.finish now).1, [(r.finish now).2], HijackResult.underlying u)
  else (r, [], HijackResult.notSupported)

/-! ### The logging `handler` and `ServeHTTP` -/

/-- One call the wrapped handler makes on the proxy, together with the
underlying channel's response where relevant:
`write resp` — a `Write` whose underlying writer accepts `resp.1` bytes
and returns error `resp.2`; `writeHeader s` — a `WriteHeader s`;
`hijack u` — a `Hijack` attempt whose underlying `Hijack` call (if
reached) returns `u`. -/
inductive HandlerAction where
  | write (resp : Nat × Option String)
  | writeHeader (status : Int)
  | hijack (u : Option String)
deriving DecidableEq

/-- The request fields read by `ServeHTTP`. -/
structure Request where
  remoteAddr : String
  method : String
  requestURI : String
  proto : String
deriving DecidableEq

/-- State threaded through one `ServeHTTP` call: the record, the list of
strings written to the output sink `out` (one element per sink write), the
statuses forwarded to the real `ResponseWriter.WriteHeader`, and the
number of `time.Now()` readings consumed so far. -/
structure ServeState where
  record : Record
  sink : List String
  forwarded : List Int
  nowIdx : Nat
deriving DecidableEq

/-- The Go zero `time.Time` (the record's `endTime` before `finish`). -/
def zeroTime : GoTime :=
  { wall := { year := 1, month := 1, day := 1, hour := 0, minute := 0, second := 0 }, mono := 0 }

/-- The record set up at the top of `ServeHTTP`: `rec.start()` takes the
first `time.Now()` reading, the request fields are copied in, and
`rec.status = http.StatusOK` (200). -/
def initState (clock : Nat → GoTime) (req : Request) : ServeState :=
  { record :=
      { startTime := clock 0, ip := getIP req.remoteAddr, endTime := zeroTime,
        method := req.method, uri := req.requestURI, protocol := req.proto,
        status := 200, responseBytes := 0, elapsedTime := 0 },
    sink := [], forwarded := [], nowIdx := 1 }

/-- Effect of one handler call on the state, as implemented by the
`record` methods above. -/
def handlerStep (supportsHijack : Bool) (clock : Nat → GoTime) (st : ServeState)
    (a : HandlerAction) : ServeState :=
  match a with
  | HandlerAction.write resp => { st with record := (st.record.Write resp).1 }
  | HandlerAction.writeHeader s =>
      { st with record := (st.record.WriteHeader s).1,
                forwarded := st.forwarded ++ [(st.record.WriteHeader s).2] }
  | HandlerAction.hijack u =>
      { st with record := (st.record.Hijack supportsHijack u (clock st.nowIdx)).1,
                sink := st.sink ++ (st.record.Hijack supportsHijack u (clock st.nowIdx)).2.1,
                nowIdx := if supportsHijack then st.nowIdx + 1 else st.nowIdx }

/-- `handler.ServeHTTP`: build the record, run the wrapped handler (the
trace `actions`), and — only if the handler returns normally rather than
panicking — call `rec.finish()`, which writes one more line.  There is no
`defer` and no finalized flag in the source: the final `finish` is reached
exactly when the handler returns normally, and runs unconditionally. -/
def ServeHTTP (supportsHijack : Bool) (clock : Nat → GoTime) (req : Request)
    (actions : List HandlerAction) (handlerPanics : Bool) : ServeState :=
  let st1 := actions.foldl (handlerStep supportsHijack clock) (initState clock req)
  if handlerPanics then st1
  else
    { st1 with record := (st1.record.finish (clock st1.nowIdx)).1,
               sink := st1.sink ++ [(st1.record.finish (clock st1.nowIdx)).2],
               nowIdx := st1.nowIdx + 1 }

/-! ### Derived notions used by the statements -/

/-- A wall-clock reading in the ranges `time.Time` actually produces
(months 1–12, days 1–31, 24-hour time, a four-digit year). -/
def validWall (w : WallTime) : Prop :=
  1 ≤ w.month ∧ w.month ≤ 12 ∧ 1 ≤ w.day ∧ w.day ≤ 31 ∧ w.year ≤ 9999 ∧
  w.hour ≤ 23 ∧ w.minute ≤ 59 ∧ w.second ≤ 59

instance (w : WallTime) : Decidable (validWall w) := by unfold validWall; infer_instance

/-- What the Go runtime guarantees about successive `time.Now()` readings:
valid wall-clock fields and a nondecreasing monotonic counter. -/
def validClock (clock : Nat → GoTime) : Prop :=
  (∀ i, validWall (clock i).wall) ∧ ∀ i j, i ≤ j → (clock i).mono ≤ (clock j).mono

/-- A string the proxy may emit on the sink: the log line of some record
with nonnegative elapsed time and a valid wall-clock end time. -/
def GoodLine (line : String) : Prop :=
  ∃ r : Record, line = Record.log r ∧ 0 ≤ r.elapsedTime ∧ validWall r.endTime.wall

/-- The handler trace contains no `Hijack` call that reaches a supporting
underlying channel (so no log line can be emitted before `ServeHTTP`'s own
`finish`). -/
def noSupportedHijack (supports : Bool) (actions : List HandlerAction) : Prop :=
  supports = false ∨ ∀ u, HandlerAction.hijack u ∉ actions

/-- The statuses passed to `WriteHeader` in a trace, in order. -/
def statusWrites (actions : List HandlerAction) : List Int :=
  actions.filterMap fun a =>
    match a with
    | HandlerAction.writeHeader s => some s
    | _ => none

/-- Repeated `record.Write` calls: fold the underlying writer's responses
through the proxy. -/
def writeSeq (r : Record) (l : List (Nat × Option String)) : Record :=
  l.foldl (fun r resp => (Record.Write r resp).1) r

/-- Concrete clock for witnesses: a fixed wall time, monotonic counter
advancing 1ms per reading. -/
def clkW : Nat → GoTime := fun i =>
  { wall := { year := 2026, month := 10, day := 11, hour := 3, minute := 4, second := 5 },
    mono := 1000000 * i }

/-- Concrete request for witnesses. -/
def req1 : Request :=
  { remoteAddr := "1.2.3.4:5678", method := "GET", requestURI := "/x", proto := "HTTP/1.1" }

/-- Concrete record for counterexamples, as built by `initState` for
`req1`. -/
def rec1 : Record :=
  { startTime := clkW 0, ip := "1.2.3.4", endTime := zeroTime, method := "GET", uri := "/x",
    protocol := "HTTP/1.1", status := 200, responseBytes := 0, elapsedTime := 0 }

/-! ### Helper lemmas: decimal rendering shapes -/

lemma string_data_append (a b : String) : (a ++ b).data = a.data ++ b.data := rfl

lemma string_length_eq (s : String) : s.length = s.data.length := rfl

lemma string_length_append (a b : String) : (a ++ b).length = a.length + b.length := by
  show (a.data ++ b.data).length = a.data.length + b.data.length
  exact List.length_append a.data b.data

lemma digitChar_isDigit (n : Nat) (h : n < 10) : (digitChar n).isDigit = true := by
  interval_cases n <;> decide

lemma natDecAux_digits : ∀ (f n : Nat), n < f → ∀ c ∈ natDecAux f n, c.isDigit = true := by
  intro f
  induction f with
  | zero => intro n h; exact absurd h (Nat.not_lt_zero n)
  | succ f ih =>
    intro n h c hc
    by_cases h10 : n < 10
    · simp only [natDecAux, if_pos h10, List.mem_singleton] at hc
      subst hc; exact digitChar_isDigit n h10
    · simp only [natDecAux, if_neg h10, List.mem_append, List.mem_singleton] at hc
      rcases hc with hc | hc
      · have hd : n / 10 < n := Nat.div_lt_self (by omega) (by omega)
        exact ih (n / 10) (by omega) c hc
      · subst hc; exact digitChar_isDigit _ (Nat.mod_lt _ (by omega))

lemma natDecAux_len1 (f n : Nat) (hf : n < f) (h : n < 10) : (natDecAux f n).length = 1 := by
  cases f with
  | zero => exact absurd hf (Nat.not_lt_zero n)
  | succ f => simp [natDecAux, if_pos h]

lemma natDecAux_len2 (f n : Nat) (hf : n < f) (h1 : 10 ≤ n) (h2 : n < 100) :
    (natDecAux f n).length = 2 := by
  cases f with
  | zero => exact absurd hf (Nat.not_lt_zero n)
  | succ f =>
    have hd : n / 10 < n := Nat.div_lt_self (by omega) (by omega)
    simp [natDecAux, if_neg (by omega : ¬ n < 10),
      natDecAux_len1 f (n / 10) (by omega) (by omega)]

lemma natDecAux_len3 (f n : Nat) (hf : n < f) (h1 : 100 ≤ n) (h2 : n < 1000) :
    (natDecAux f n).length = 3 := by
  cases f with
  | zero => exact absurd hf (Nat.not_lt_zero n)
  | succ f =>
    have hd : n / 10 < n := Nat.div_lt_self (by omega) (by omega)
    simp [natDecAux, if_neg (by omega : ¬ n < 10),
      natDecAux_len2 f (n / 10) (by omega) (by omega) (by omega)]

lemma natDecAux_len4 (f n : Nat) (hf : n < f) (h1 : 1000 ≤ n) (h2 : n < 10000) :
    (natDecAux f n).length = 4 := by
  cases f with
  | zero => exact absurd hf (Nat.not_lt_zero n)
  | succ f =>
    have hd : n / 10 < n := Nat.div_lt_self (by omega) (by omega)
    simp [natDecAux, if_neg (by omega : ¬ n < 10),
      natDecAux_len3 f (n / 10) (by omega) (by omega) (by omega)]

lemma natDecAux_len_pos (f n : Nat) (hf : n < f) : 1 ≤ (natDecAux f n).length := by
  cases f with
  | zero => exact absurd hf (Nat.not_lt_zero n)
  | succ f =>
    by_cases h10 : n < 10
    · simp [natDecAux, if_pos h10]
    · simp [natDecAux, if_neg h10]

lemma natDec_digits (n : Nat) : ∀ c ∈ (natDec n).data, c.isDigit = true :=
  natDecAux_digits (n + 1) n (Nat.lt_succ_self n)

lemma natDec_length_pos (n : Nat) : 1 ≤ (natDec n).length :=
  natDecAux_len_pos (n + 1) n (Nat.lt_succ_self n)

lemma natDec_len1 (n : Nat) (h : n < 10) : (natDec n).length = 1 :=
  natDecAux_len1 (n + 1) n (Nat.lt_succ_self n) h

lemma natDec_len2 (n : Nat) (h1 : 10 ≤ n) (h2 : n < 100) : (natDec n).length = 2 :=
  natDecAux_len2 (n + 1) n (Nat.lt_succ_self n) h1 h2

lemma natDec_len3 (n : Nat) (h1 : 100 ≤ n) (h2 : n < 1000) : (natDec n).length = 3 :=
  natDecAux_len3 (n + 1) n (Nat.lt_succ_self n) h1 h2

lemma natDec_len4 (n : Nat) (h1 : 1000 ≤ n) (h2 : n < 10000) : (natDec n).length = 4 :=
  natDecAux_len4 (n + 1) n (Nat.lt_succ_self n) h1 h2

lemma zeros3_digits : ∀ c ∈ ("000" : String).data, c.isDigit = true := by decide

lemma zeros2_digits : ∀ c ∈ ("00" : String).data, c.isDigit = true := by decide

lemma zeros1_digits : ∀ c ∈ ("0" : String).data, c.isDigit = true := by decide

lemma append_digits (a b : String) (ha : ∀ c ∈ a.data, c.isDigit = true)
    (hb : ∀ c ∈ b.data, c.isDigit = true) : ∀ c ∈ (a ++ b).data, c.isDigit = true := by
  intro c hc
  rw [string_data_append] at hc
  rcases List.mem_append.mp hc with h | h
  · exact ha c h
  · exact hb c h

lemma pad4_spec (n : Nat) (h : n < 10000) :
    (pad4 n).length = 4 ∧ ∀ c ∈ (pad4 n).data, c.isDigit = true := by
  unfold pad4
  by_cases h1 : n < 10
  · rw [if_pos h1]
    exact ⟨by rw [string_length_append, natDec_len1 n h1]; rfl,
      append_digits _ _ zeros3_digits (natDec_digits n)⟩
  · rw [if_neg h1]
    by_cases h2 : n < 100
    · rw [if_pos h2]
      exact ⟨by rw [string_length_append, natDec_len2 n (by omega) h2]; rfl,
        append_digits _ _ zeros2_digits (natDec_digits n)⟩
    · rw [if_neg h2]
      by_cases h3 : n < 1000
      · rw [if_pos h3]
        exact ⟨by rw [string_length_append, natDec_len3 n (by omega) h3]; rfl,
          append_digits _ _ zeros1_digits (natDec_digits n)⟩
      · rw [if_neg h3]
        exact ⟨natDec_len4 n (by omega) h, natDec_digits n⟩

lemma pad2_spec (n : Nat) (h : n ≤ 99) :
    (pad2 n).length = 2 ∧ ∀ c ∈ (pad2 n).data, c.isDigit = true := by
  unfold pad2
  by_cases h1 : n < 10
  · rw [if_pos h1]
    exact ⟨by rw [string_length_append, natDec_len1 n h1]; rfl,
      append_digits _ _ zeros1_digits (natDec_digits n)⟩
  · rw [if_neg h1]
    exact ⟨natDec_len2 n (by omega) (by omega), natDec_digits n⟩

lemma monthAbbrev_len (m : Nat) (h1 : 1 ≤ m) (h2 : m ≤ 12) : (monthAbbrev m).length = 3 := by
  interval_cases m <;> rfl

lemma fmtSeconds4_shape (el : Int) (h : 0 ≤ el) :
    ∃ ipart frac : String, fmtSeconds4 el = ipart ++ "." ++ frac ∧ frac.length = 4 ∧
      (∀ c ∈ frac.data, c.isDigit = true) ∧ 1 ≤ ipart.length ∧
      (∀ c ∈ ipart.data, c.isDigit = true) := by
  refine ⟨natDec (roundHalfEven el.natAbs 100000 / 10000),
    pad4 (roundHalfEven el.natAbs 100000 % 10000), ?_, ?_, ?_, ?_, ?_⟩
  · unfold fmtSeconds4
    rw [if_neg (by omega : ¬ el < 0)]
    rfl
  · exact (pad4_spec _ (by omega)).1
  · exact (pad4_spec _ (by omega)).2
  · exact natDec_length_pos _
  · exact natDec_digits _

lemma formatTimestamp_shape (w : WallTime) (h : validWall w) :
    ∃ dd mon yyyy hh mi ss : String,
      formatTimestamp w = dd ++ "/" ++ mon ++ "/" ++ yyyy ++ " " ++ hh ++ ":" ++ mi ++ ":" ++ ss
      ∧ dd.length = 2 ∧ mon.length = 3 ∧ yyyy.length = 4
      ∧ hh.length = 2 ∧ mi.length = 2 ∧ ss.length = 2
      ∧ (∀ c ∈ dd.data, c.isDigit = true) ∧ (∀ c ∈ yyyy.data, c.isDigit = true)
      ∧ (∀ c ∈ hh.data, c.isDigit = true) ∧ (∀ c ∈ mi.data, c.isDigit = true)
      ∧ (∀ c ∈ ss.data, c.isDigit = true) := by
  obtain ⟨h1, h2, h3, h4, h5, h6, h7, h8⟩ := h
  exact ⟨pad2 w.day, monthAbbrev w.month, pad4 w.year, pad2 w.hour, pad2 w.minute, pad2 w.second,
    rfl, (pad2_spec _ (by omega)).1, monthAbbrev_len _ h1 h2, (pad4_spec _ (by omega)).1,
    (pad2_spec _ (by omega)).1, (pad2_spec _ (by omega)).1, (pad2_spec _ (by omega)).1,
    (pad2_spec _ (by omega)).2, (pad4_spec _ (by omega)).2, (pad2_spec _ (by omega)).2,
    (pad2_spec _ (by omega)).2, (pad2_spec _ (by omega)).2⟩

/-! ### Helper lemmas: the record methods and `ServeHTTP` -/

lemma Hijack_fst_status (r : Record) (supports : Bool) (u : Option String) (now : GoTime) :
    (Record.Hijack r supports u now).1.status = r.status := by
  cases supports <;> rfl

lemma Hijack_fst_startTime (r : Record) (supports : Bool) (u : Option String) (now : GoTime) :
    (Record.Hijack r supports u now).1.startTime = r.startTime := by
  cases supports <;> rfl

lemma finish_snd_eq (r : Record) (now : GoTime) :
    (Record.finish r now).2 = Record.log (Record.finish r now).1 := rfl

lemma handlerStep_sink_eq (supports : Bool) (clock : Nat → GoTime) (st : ServeState)
    (a : HandlerAction) (h : supports = false ∨ ∀ u, a ≠ HandlerAction.hijack u) :
    (handlerStep supports clock st a).sink = st.sink := by
  cases a with
  | write resp => rfl
  | writeHeader s => rfl
  | hijack u =>
    rcases h with h | h
    · subst h; simp [handlerStep, Record.Hijack]
    · exact absurd rfl (h u)

lemma foldl_sink_eq (supports : Bool) (clock : Nat → GoTime) :
    ∀ (actions : List HandlerAction) (st : ServeState), noSupportedHijack supports actions →
      (actions.foldl (handlerStep supports clock) st).sink = st.sink := by
  intro actions
  induction actions with
  | nil => intro st _; rfl
  | cons a rest ih =>
    intro st h
    have hrest : noSupportedHijack supports rest := by
      rcases h with h | h
      · exact Or.inl h
      · exact Or.inr fun u hu => h u (List.mem_cons_of_mem a hu)
    have hstep : supports = false ∨ ∀ u, a ≠ HandlerAction.hijack u := by
      rcases h with h | h
      · exact Or.inl h
      · refine Or.inr fun u ha => h u ?_
        rw [← ha]
        exact List.mem_cons_self a rest
    rw [List.foldl_cons, ih _ hrest, handlerStep_sink_eq supports clock st a hstep]

lemma ServeHTTP_sink_panic_eq (supports : Bool) (clock : Nat → GoTime) (req : Request)
    (actions : List HandlerAction) :
    (ServeHTTP supports clock req actions true).sink
      = (actions.foldl (handlerStep supports clock) (initState clock req)).sink := rfl

lemma ServeHTTP_sink_normal_eq (supports : Bool) (clock : Nat → GoTime) (req : Request)
    (actions : List HandlerAction) :
    (ServeHTTP supports clock req actions false).sink
      = (actions.foldl (handlerStep supports clock) (initState clock req)).sink
        ++ [Record.log ((ServeHTTP supports clock req actions false).record)] := rfl

lemma ServeHTTP_sink_panic (supports : Bool) (clock : Nat → GoTime) (req : Request)
    (actions : List HandlerAction) (h : noSupportedHijack supports actions) :
    (ServeHTTP supports clock req actions true).sink = [] := by
  rw [ServeHTTP_sink_panic_eq, foldl_sink_eq supports clock actions (initState clock req) h]
  rfl

lemma ServeHTTP_sink_normal (supports : Bool) (clock : Nat → GoTime) (req : Request)
    (actions : List HandlerAction) (h : noSupportedHijack supports actions) :
    (ServeHTTP supports clock req actions false).sink
      = [Record.log ((ServeHTTP supports clock req actions false).record)] := by
  rw [ServeHTTP_sink_normal_eq, foldl_sink_eq supports clock actions (initState clock req) h]
  rfl

lemma statusWrites_cons_write (resp : Nat × Option String) (rest : List HandlerAction) :
    statusWrites (HandlerAction.write resp :: rest) = statusWrites rest := rfl

lemma statusWrites_cons_hijack (u : Option String) (rest : List HandlerAction) :
    statusWrites (HandlerAction.hijack u :: rest) = statusWrites rest := rfl

lemma statusWrites_cons_writeHeader (s : Int) (rest : List HandlerAction) :
    statusWrites (HandlerAction.writeHeader s :: rest) = s :: statusWrites rest := rfl

lemma foldl_status (supports : Bool) (clock : Nat → GoTime) :
    ∀ (actions : List HandlerAction) (st : ServeState),
      (actions.foldl (handlerStep supports clock) st).record.status
        = (statusWrites actions).getLastD st.record.status ∧
      (actions.foldl (handlerStep supports clock) st).forwarded
        = st.forwarded ++ statusWrites actions := by
  intro actions
  induction actions with
  | nil => intro st; exact ⟨rfl, (List.append_nil _).symm⟩
  | cons a rest ih =>
    intro st
    rw [List.foldl_cons]
    cases a with
    | write resp =>
      rw [statusWrites_cons_write]
      exact ⟨(ih _).1, (ih _).2⟩
    | writeHeader s =>
      rw [statusWrites_cons_writeHeader]
      constructor
      · rw [(ih _).1, List.getLastD_cons]
        rfl
      · rw [(ih _).2]
        show (st.forwarded ++ [s]) ++ statusWrites rest = _
        rw [List.append_assoc, List.singleton_append]
    | hijack u =>
      rw [statusWrites_cons_hijack]
      constructor
      · have hx : (handlerStep supports clock st (HandlerAction.hijack u)).record.status
            = st.record.status := Hijack_fst_status st.record supports u (clock st.nowIdx)
        rw [(ih _).1, hx]
      · exact (ih _).2

lemma ServeHTTP_status (supports : Bool) (clock : Nat → GoTime) (req : Request)
    (actions : List HandlerAction) (handlerPanics : Bool) :
    (ServeHTTP supports clock req actions handlerPanics).record.status
      = (statusWrites actions).getLastD 200 ∧
    (ServeHTTP supports clock req actions handlerPanics).forwarded = statusWrites actions := by
  have h := foldl_status supports clock actions (initState clock req)
  cases handlerPanics with
  | false =>
    constructor
    · show (((actions.foldl (handlerStep supports clock) (initState clock req)).record.finish
          (clock (actions.foldl (handlerStep supports clock) (initState clock req)).nowIdx)).1).status = _
      exact h.1
    · exact h.2
  | true => exact h

lemma finish_goodLine (clock : Nat → GoTime) (hv : validClock clock) (r : Record) (n : Nat)
    (h : r.startTime.mono = (clock 0).mono) : GoodLine ((Record.finish r (clock n)).2) := by
  refine ⟨(Record.finish r (clock n)).1, finish_snd_eq r (clock n), ?_, ?_⟩
  · show (0 : Int) ≤ ((clock n).mono : Int) - (r.startTime.mono : Int)
    have hm : (clock 0).mono ≤ (clock n).mono := hv.2 0 n (Nat.zero_le n)
    rw [h]
    omega
  · exact hv.1 n

lemma foldl_goodLines (supports : Bool) (clock : Nat → GoTime) (hv : validClock clock) :
    ∀ (actions : List HandlerAction) (st : ServeState),
      st.record.startTime.mono = (clock 0).mono →
      (∀ line ∈ st.sink, GoodLine line) →
      (actions.foldl (handlerStep supports clock) st).record.startTime.mono = (clock 0).mono ∧
      ∀ line ∈ (actions.foldl (handlerStep supports clock) st).sink, GoodLine line := by
  intro actions
  induction actions with
  | nil => intro st h1 h2; exact ⟨h1, h2⟩
  | cons a rest ih =>
    intro st h1 h2
    rw [List.foldl_cons]
    apply ih
    · cases a with
      | write resp => exact h1
      | writeHeader s => exact h1
      | hijack u =>
        have hx : (handlerStep supports clock st (HandlerAction.hijack u)).record.startTime
            = st.record.startTime := Hijack_fst_startTime st.record supports u (clock st.nowIdx)
        rw [hx]
        exact h1
    · cases a with
      | write resp => exact h2
      | writeHeader s => exact h2
      | hijack u =>
        intro line hline
        cases supports with
        | false =>
          refine h2 line ?_
          have hx : (handlerStep false clock st (HandlerAction.hijack u)).sink = st.sink := by
            simp [handlerStep, Record.Hijack]
          rw [← hx]
          exact hline
        | true =>
          have hx : (handlerStep true clock st (HandlerAction.hijack u)).sink
              = st.sink ++ [(Record.finish st.record (clock st.nowIdx)).2] := by
            simp [handlerStep, Record.Hijack]
          rw [hx] at hline
          rcases List.mem_append.mp hline with hm | hm
          · exact h2 line hm
          · rw [List.mem_singleton.mp hm]
            exact finish_goodLine clock hv st.record st.nowIdx h1

lemma ServeHTTP_goodLines (supports : Bool) (clock : Nat → GoTime) (req : Request)
    (actions : List HandlerAction) (handlerPanics : Bool) (hv : validClock clock) :
    ∀ line ∈ (ServeHTTP supports clock req actions handlerPanics).sink, GoodLine line := by
  have hinit : (initState clock req).record.startTime.mono = (clock 0).mono := rfl
  have h0 : ∀ line ∈ (initState clock req).sink, GoodLine line := by
    intro line h
    exact absurd h (List.not_mem_nil line)
  have hf := foldl_goodLines supports clock hv actions (initState clock req) hinit h0
  cases handlerPanics with
  | true => exact hf.2
  | false =>
    intro line hline
    have hline2 : line ∈ (actions.foldl (handlerStep supports clock) (initState clock req)).sink
        ++ [((actions.foldl (handlerStep supports clock) (initState clock req)).record.finish
              (clock ((actions.foldl (handlerStep supports clock) (initState clock req)).nowIdx))).2] :=
      hline
    rcases List.mem_append.mp hline2 with hm | hm
    · exact hf.2 line hm
    · rw [List.mem_singleton.mp hm]
      exact finish_goodLine clock hv _ _ hf.1

/-! ### Claims -/

/-- C1: the claim says a successful hijack writes the log line at the
moment of hijack success and makes the decorator's post-handler finalize a
no-op, for one line in total.  Evaluating the code on a request whose
handler performs one successful `Hijack` and then returns: `record.Hijack`
logs once (inside `finish`, before the underlying hijack even runs) and
`ServeHTTP` then calls `rec.finish()` again unconditionally — there is no
finalized flag — so the sink receives two log lines, not one. -/
theorem ServeHTTP_hijack_logs_twice :
    (ServeHTTP true clkW req1 [HandlerAction.hijack none] false).sink.length = 2 := rfl

/-- C2 counterexample: with a supporting underlying channel whose own
hijack call fails, `record.Hijack` nevertheless finalizes (sets `endTime`)
and writes one log line, returning the underlying error verbatim — the
claim said failure propagates with no finalization and no line. -/
theorem Hijack_underlying_error_still_logs :
    (Record.Hijack rec1 true (some "connection already hijacked") (clkW 1)).2.2
        = HijackResult.underlying (some "connection already hijacked") ∧
    (Record.Hijack rec1 true (some "connection already hijacked") (clkW 1)).2.1.length = 1 ∧
    (Record.Hijack rec1 true (some "connection already hijacked") (clkW 1)).1.endTime = clkW 1 :=
  ⟨rfl, rfl, rfl⟩

/-- C2 amended: when the underlying channel supports hijacking,
`record.Hijack` finalizes the record (captures end time, computes the
elapsed duration, writes exactly the log line) unconditionally, before the
underlying hijack call, and then returns the underlying call's result —
success or error — verbatim. -/
theorem Hijack_finalizes_before_underlying (r : Record) (u : Option String) (now : GoTime) :
    (Record.Hijack r true u now).1.endTime = now ∧
    (Record.Hijack r true u now).1.elapsedTime = (now.mono : Int) - (r.startTime.mono : Int) ∧
    (Record.Hijack r true u now).2.1 = [Record.log (Record.Hijack r true u now).1] ∧
    (Record.Hijack r true u now).2.2 = HijackResult.underlying u :=
  ⟨rfl, rfl, rfl, rfl⟩

/-- C3 counterexample: a handler that sets status 500, writes 7 bytes and
then panics produces no log line at all — `ServeHTTP` has no deferred
finalize, so the abnormal path emits nothing, where the claim requires one
line with the recorded status and bytes. -/
theorem ServeHTTP_panic_no_log :
    (ServeHTTP false clkW req1
        [HandlerAction.writeHeader 500, HandlerAction.write (7, none)] true).sink = [] := rfl

/-- C3 amended: finalization runs only on the normal-return path.  For a
handler that never reaches a supported hijack: if it terminates
abnormally (panics), no log line is written; if it returns normally,
exactly one log line is written. -/
theorem finalize_only_on_normal_return (supports : Bool) (clock : Nat → GoTime) (req : Request)
    (actions : List HandlerAction) (h : noSupportedHijack supports actions) :
    (ServeHTTP supports clock req actions true).sink = [] ∧
    (ServeHTTP supports clock req actions false).sink.length = 1 :=
  ⟨ServeHTTP_sink_panic supports clock req actions h,
   by rw [ServeHTTP_sink_normal supports clock req actions h]; rfl⟩

/-- Witness for the C3 amended theorem at a concrete trace. -/
theorem finalize_only_on_normal_return_witness :
    noSupportedHijack false [HandlerAction.writeHeader 500, HandlerAction.write (7, none)] ∧
    (ServeHTTP false clkW req1
        [HandlerAction.writeHeader 500, HandlerAction.write (7, none)] true).sink = [] ∧
    (ServeHTTP false clkW req1
        [HandlerAction.writeHeader 500, HandlerAction.write (7, none)] false).sink.length = 1 :=
  ⟨Or.inl rfl,
   (finalize_only_on_normal_return false clkW req1 _ (Or.inl rfl)).1,
   (finalize_only_on_normal_return false clkW req1 _ (Or.inl rfl)).2⟩

/-- C4 counterexample: a request whose handler attempts a hijack on a
supporting channel but whose underlying hijack call fails is not hijacked
(the caller gets the error, no connection), yet the sink receives two
writes: one from `record.Hijack`'s unconditional `finish`, one from the
decorator's post-handler `finish`. -/
theorem ServeHTTP_failed_hijack_two_writes :
    (ServeHTTP true clkW req1 [HandlerAction.hijack (some "hijack refused")] false).sink.length = 2
    ∧ (Record.Hijack (initState clkW req1).record true (some "hijack refused")
          (clkW (initState clkW req1).nowIdx)).2.2
        = HijackResult.underlying (some "hijack refused") :=
  ⟨rfl, rfl⟩

/-- C4 amended: for every request in which the wrapped handler returns
normally and never calls `Hijack` while the underlying channel supports
it, one `ServeHTTP` call results in exactly one write to the output sink,
and that single write is one whole formatted log line. -/
theorem one_atomic_write_when_no_hijack (supports : Bool) (clock : Nat → GoTime) (req : Request)
    (actions : List HandlerAction) (h : noSupportedHijack supports actions) :
    ∃ r : Record, (ServeHTTP supports clock req actions false).sink = [Record.log r] :=
  ⟨(ServeHTTP supports clock req actions false).record,
   ServeHTTP_sink_normal supports clock req actions h⟩

/-- Witness for the C4 amended theorem at a concrete trace. -/
theorem one_atomic_write_when_no_hijack_witness :
    noSupportedHijack false [HandlerAction.write (13, none)] ∧
    ∃ r : Record,
      (ServeHTTP false clkW req1 [HandlerAction.write (13, none)] false).sink = [Record.log r] :=
  ⟨Or.inl rfl, one_atomic_write_when_no_hijack false clkW req1 _ (Or.inl rfl)⟩

/-- C6: when the underlying channel does not support hijacking,
`record.Hijack` returns `ErrHijackingNotSupported` with no side effects —
record unchanged, nothing written — and any request on such a channel
whose handler returns normally yields exactly one log line, produced by
the decorator's post-handler finalize. -/
theorem hijack_unsupported_no_side_effects :
    (∀ (r : Record) (u : Option String) (now : GoTime),
        Record.Hijack r false u now = (r, [], HijackResult.notSupported)) ∧
    (∀ (clock : Nat → GoTime) (req : Request) (actions : List HandlerAction),
        ∃ r : Record, (ServeHTTP false clock req actions false).sink = [Record.log r]) :=
  ⟨fun _ _ _ => rfl,
   fun clock req actions =>
     ⟨(ServeHTTP false clock req actions false).record,
      ServeHTTP_sink_normal false clock req actions (Or.inl rfl)⟩⟩

/-- C7: `record.Write` returns the underlying writer's count and error
unmodified, adds exactly the accepted count to `responseBytes` (also on a
partial write that carries an error), never decreases the counter, and
over any sequence of writes the counter ends at its start plus the sum of
the accepted counts. -/
theorem Write_delegates_and_counts :
    (∀ (r : Record) (resp : Nat × Option String),
        (Record.Write r resp).2 = resp ∧
        (Record.Write r resp).1.responseBytes = r.responseBytes + (resp.1 : Int) ∧
        r.responseBytes ≤ (Record.Write r resp).1.responseBytes) ∧
    (∀ (r : Record) (l : List (Nat × Option String)),
        (writeSeq r l).responseBytes
          = r.responseBytes + (l.map fun resp => (resp.1 : Int)).sum) := by
  constructor
  · intro r resp
    refine ⟨rfl, rfl, ?_⟩
    show r.responseBytes ≤ r.responseBytes + (resp.1 : Int)
    omega
  · intro r l
    induction l generalizing r with
    | nil => simp [writeSeq]
    | cons x xs ih =>
      show (writeSeq (Record.Write r x).1 xs).responseBytes = _
      rw [ih]
      show (r.responseBytes + (x.1 : Int)) + _ = _
      rw [List.map_cons, List.sum_cons]
      omega

/-- C8: the status defaults to 200 when `WriteHeader` is never called,
each `WriteHeader` records its status (later calls overwrite earlier
ones — the logged status is the last one written) and forwards it to the
real channel; concretely, a handler that sets 404 and writes nothing
yields one log line whose record carries status 404 and zero bytes. -/
theorem status_default_and_last_wins :
    (∀ (supports : Bool) (clock : Nat → GoTime) (req : Request)
        (actions : List HandlerAction) (handlerPanics : Bool),
        (ServeHTTP supports clock req actions handlerPanics).record.status
          = (statusWrites actions).getLastD 200 ∧
        (ServeHTTP supports clock req actions handlerPanics).forwarded = statusWrites actions) ∧
    (∀ (r : Record) (s : Int),
        (Record.WriteHeader r s).1.status = s ∧ (Record.WriteHeader r s).2 = s) ∧
    (∃ r : Record,
        (ServeHTTP false clkW req1 [HandlerAction.writeHeader 404] false).sink = [Record.log r] ∧
        r.status = 404 ∧ r.responseBytes = 0) := by
  refine ⟨ServeHTTP_status, fun r s => ⟨rfl, rfl⟩, ?_⟩
  exact ⟨(ServeHTTP false clkW req1 [HandlerAction.writeHeader 404] false).record,
    ServeHTTP_sink_normal false clkW req1 _ (Or.inl rfl), rfl, rfl⟩

/-- C5: every string the model puts on the sink is one log line matching
the template `%s - - [%s] "%s %s %s" %d %d %.4f\n` byte for byte — client
address, literal `- -`, bracketed timestamp, the quoted request line,
numeric status, numeric byte count, elapsed seconds, then a newline — and,
under the runtime's clock guarantees, the elapsed time is nonnegative, the
`%.4f` field has exactly four digits after the decimal point, and the
timestamp is two-digit day / three-letter month / four-digit year followed
by 24-hour `HH:MM:SS`. -/
theorem log_line_matches_template (supports : Bool) (clock : Nat → GoTime) (req : Request)
    (actions : List HandlerAction) (handlerPanics : Bool) (hv : validClock clock) :
    (∀ line ∈ (ServeHTTP supports clock req actions handlerPanics).sink,
      ∃ r : Record,
        line = r.ip ++ " - - [" ++ formatTimestamp r.endTime.wall ++ "] \"" ++ r.method ++ " "
          ++ r.uri ++ " " ++ r.protocol ++ "\" " ++ intDec r.status ++ " "
          ++ intDec r.responseBytes ++ " " ++ fmtSeconds4 r.elapsedTime ++ "\n"
        ∧ 0 ≤ r.elapsedTime ∧ validWall r.endTime.wall) ∧
    (∀ el : Int, 0 ≤ el →
      ∃ ipart frac : String, fmtSeconds4 el = ipart ++ "." ++ frac ∧ frac.length = 4 ∧
        (∀ c ∈ frac.data, c.isDigit = true) ∧ 1 ≤ ipart.length ∧
        (∀ c ∈ ipart.data, c.isDigit = true)) ∧
    (∀ w : WallTime, validWall w →
      ∃ dd mon yyyy hh mi ss : String,
        formatTimestamp w = dd ++ "/" ++ mon ++ "/" ++ yyyy ++ " " ++ hh ++ ":" ++ mi ++ ":" ++ ss
        ∧ dd.length = 2 ∧ mon.length = 3 ∧ yyyy.length = 4
        ∧ hh.length = 2 ∧ mi.length = 2 ∧ ss.length = 2
        ∧ (∀ c ∈ dd.data, c.isDigit = true) ∧ (∀ c ∈ yyyy.data, c.isDigit = true)
        ∧ (∀ c ∈ hh.data, c.isDigit = true) ∧ (∀ c ∈ mi.data, c.isDigit = true)
        ∧ (∀ c ∈ ss.data, c.isDigit = true)) := by
  refine ⟨?_, fmtSeconds4_shape, formatTimestamp_shape⟩
  intro line hline
  obtain ⟨r, hlog, h1, h2⟩ :=
    ServeHTTP_goodLines supports clock req actions handlerPanics hv line hline
  exact ⟨r, hlog, h1, h2⟩

lemma validClock_clkW : validClock clkW := by
  constructor
  · intro i
    show validWall { year := 2026, month := 10, day := 11, hour := 3, minute := 4, second := 5 }
    decide
  · intro i j h
    show 1000000 * i ≤ 1000000 * j
    omega

/-- Witness for C5 at a concrete clock, request and trace. -/
theorem log_line_matches_template_witness :
    validClock clkW ∧
    (∀ line ∈ (ServeHTTP false clkW req1 [] false).sink,
      ∃ r : Record,
        line = r.ip ++ " - - [" ++ formatTimestamp r.endTime.wall ++ "] \"" ++ r.method ++ " "
          ++ r.uri ++ " " ++ r.protocol ++ "\" " ++ intDec r.status ++ " "
          ++ intDec r.responseBytes ++ " " ++ fmtSeconds4 r.elapsedTime ++ "\n"
        ∧ 0 ≤ r.elapsedTime ∧ validWall r.endTime.wall) :=
  ⟨validClock_clkW, (log_line_matches_template false clkW req1 [] false validClock_clkW).1⟩

/-- C9: `getIP` maps `"127.0.0.1:36341"` to `"127.0.0.1"`, maps
`"[::1]:44092"` to the host-only form `"::1"` (the bracket-stripped host,
equivalent to `[::1]`), and returns an address with no colon-delimited
port, `"unix-socket-id"`, verbatim without error. -/
theorem getIP_examples :
    getIP "127.0.0.1:36341" = "127.0.0.1" ∧ getIP "[::1]:44092" = "::1" ∧
    getIP "unix-socket-id" = "unix-socket-id" :=
  ⟨rfl, rfl, rfl⟩

/-- C10: whenever `net.SplitHostPort` fails — on strings without a colon
but also on colon-bearing strings that are not `host:port`, such as
`"::1"` or `"a:b:c"` — `getIP` returns its input verbatim; `getIP` is
total, always returning either the split-off host or the raw input, never
an error. -/
theorem getIP_fallback_total :
    (∀ (s e : String), splitHostPort s = Except.error e → getIP s = s) ∧
    (∀ s : String, getIP s = s ∨ ∃ hp : String × String,
        splitHostPort s = Except.ok hp ∧ getIP s = hp.1) ∧
    getIP "::1" = "::1" ∧ getIP "a:b:c" = "a:b:c" := by
  refine ⟨?_, ?_, rfl, rfl⟩
  · intro s e h
    unfold getIP
    rw [h]
  · intro s
    unfold getIP
    cases hsp : splitHostPort s with
    | error e => exact Or.inl rfl
    | ok hp => exact Or.inr ⟨hp, rfl, rfl⟩

/-- Witness for C10 at the concrete unparseable input `"::1"`. -/
theorem getIP_fallback_total_witness :
    splitHostPort "::1" = Except.error "too many colons in address" ∧ getIP "::1" = "::1" :=
  ⟨rfl, getIP_fallback_total.1 "::1" "too many colons in address" rfl⟩
